import Mathlib

/-!
Verification of the `atsamd-rs` DMAC controller driver
(`hal/src/common/dmac/dma_controller.rs`).

The driver is embedded shallowly: memory-mapped registers become `Nat`
fields (a value always below `2 ^ 32`), the PAC's read-modify-write field
accessors become bit-level update functions on those `Nat`s, and the order
of register accesses performed by `init` / `free` is recorded as an explicit
action trace so that clock-gating discipline can be stated.
-/

namespace Dmac

/-! ## Bit-level register model

Registers are modelled as natural numbers (always `< 2 ^ 32`; the 16-bit
`CTRL` register simply never has its high bits set).  `wbit b p x` is the
result of the PAC's `modify(|_, w| w.field().bit(b))` on a single-bit field
at position `p`: writing `b` to bit `p` of `x` and leaving every other bit
unchanged. -/

/-- Write bit `p` of `x` to `b`, preserving all other bits (within the
32-bit register width). This is the semantics of the PAC's single-bit
`set_bit` / `clear_bit` / `bit(b)` writer calls inside `modify`. -/
def wbit (b : Bool) (p x : Nat) : Nat :=
  if b then x ||| 2 ^ p else x &&& ((2 ^ 32 - 1) ^^^ 2 ^ p)

/-- Conditionally write bit `p` of `x` to `b`: the effect of a guarded
single-bit register write (`if cnd { reg.modify(w.field().bit(b)) }`). -/
def cwbit (cnd b : Bool) (p x : Nat) : Nat :=
  if cnd then wbit b p x else x

/-- Bit position of `CTRL.SWRST` (software reset). -/
def SWRST : Nat := 0

/-- Bit position of `CTRL.DMAENABLE` (global DMA enable). -/
def DMAENABLE : Nat := 1

/-- Bit position of `CTRL.LVLENx`: the four level-enable bits occupy bits
8..11 of the `CTRL` register. -/
def lvlenPos (i : Fin 4) : Nat := 8 + i.val

/-- Bit position of `PRICTRL0.RRLVLENx`: the round-robin-enable bits sit at
bits 7, 15, 23, 31, i.e. one every 8 bits starting at bit 7. -/
def rrlvlenPos (i : Fin 4) : Nat := 8 * i.val + 7

/-- Bit position of the `DMAC` mask bit in `PM.AHBMASK`. -/
def AHB_DMAC : Nat := 5

/-- Bit position of the `DMAC` mask bit in `PM.APBBMASK`. -/
def APB_DMAC : Nat := 4

/-- The DMAC peripheral register block: control register, priority-control
register, and the two table base-address registers (the register subset
touched by `DmaController`). -/
structure DmacRegs where
  ctrl : Nat
  prictrl0 : Nat
  baseaddr : Nat
  wrbaddr : Nat
deriving DecidableEq, Repr

/-- The power-manager registers holding the DMAC bus-clock mask bits. -/
structure PmRegs where
  ahbmask : Nat
  apbbmask : Nat
deriving DecidableEq, Repr

/-- Reset state of the DMAC register block: every register at its reset
value (all zero on this family). -/
def DMAC_RESET : DmacRegs := ⟨0, 0, 0, 0⟩

/-! ## Register access traces

`init` and `free` interleave power-manager clock-mask writes with DMAC
register accesses; the order matters for clock-gating discipline, so each
lifecycle function also yields the sequence of accesses it performs. -/

/-- One register access performed by the driver: either a clock-mask write
in the power manager, or an access to a DMAC register. -/
inductive Action where
  | ahbClkEnable
  | apbClkEnable
  | ahbClkDisable
  | apbClkDisable
  | dmacSwreset
  | dmacBaseaddrWrite
  | dmacWrbaddrWrite
  | dmacCtrlLvlen
  | dmacCtrlEnable
  | dmacCtrlDisable
deriving DecidableEq, Repr

/-- Does this action access a DMAC register (as opposed to a power-manager
clock mask)? -/
def isDmacAccess : Action → Bool
  | .ahbClkEnable => false
  | .apbClkEnable => false
  | .ahbClkDisable => false
  | .apbClkDisable => false
  | _ => true

/-- Clock-mask state transition of one action: the pair is
(AHB clock ungated, APB clock ungated). -/
def clockStep (s : Bool × Bool) : Action → Bool × Bool
  | .ahbClkEnable => (true, s.2)
  | .apbClkEnable => (s.1, true)
  | .ahbClkDisable => (false, s.2)
  | .apbClkDisable => (s.1, false)
  | _ => s

/-- Clock-mask state after executing a whole trace. -/
def clockAfter (s : Bool × Bool) (tr : List Action) : Bool × Bool :=
  tr.foldl clockStep s

/-- `clockSafe s tr` holds when every DMAC register access in `tr` happens
while both the AHB and APB clocks for the DMAC are ungated, starting from
clock state `s`. -/
def clockSafe (s : Bool × Bool) : List Action → Bool
  | [] => true
  | a :: rest =>
    (!(isDmacAccess a) || (s.1 && s.2)) && clockSafe (clockStep s a) rest

/-! ## The software-reset busy-wait (`DmaController::swreset`)

```rust
fn swreset(dmac: &mut DMAC) {
    dmac.ctrl.modify(|_, w| w.swrst().set_bit());
    while dmac.ctrl.read().swrst().bit_is_set() {}
}
```

The loop's termination depends only on the successive hardware reads of the
`SWRST` flag; those reads are modelled by an oracle `hw : Nat → Bool` giving
the flag value observed at the `k`-th read.  `swresetWait` runs the loop
with `fuel` reads available and returns the index of the first read that
observed the flag clear, or `none` if all `fuel` reads observed it set —
the source loop has no iteration cap, so it terminates exactly when *some*
fuel suffices. -/

/-- The `while dmac.ctrl.read().swrst().bit_is_set() {}` loop, reading the
flag through the oracle `hw` starting at read index `k`, with `fuel` reads
available. -/
def swresetWait (hw : Nat → Bool) (k : Nat) : Nat → Option Nat
  | 0 => none
  | fuel + 1 => if hw k then swresetWait hw (k + 1) fuel else some k

/-- The busy-wait loop terminates on hardware behaviour `hw`: some finite
number of reads suffices for the loop to exit. -/
def swresetTerminates (hw : Nat → Bool) : Prop :=
  ∃ fuel, (swresetWait hw 0 fuel).isSome

/-- `DmaController::swreset`, register-effect view: sets `CTRL.SWRST` and
busy-waits until hardware clears it.  A completed software reset returns
every DMAC register to its reset value, so the effect on the register block
is the reset state; the busy-wait loop itself is modelled by
`swresetWait`. -/
def swreset (_d : DmacRegs) : DmacRegs := DMAC_RESET

/-! ## `DmaController` lifecycle -/

/-- The trace of register accesses performed by `DmaController::init`, in
source order: enable AHB clock, enable APB clock, software reset, write
`BASEADDR`, write `WRBADDR`, set the four `LVLEN` bits, set `DMAENABLE`. -/
def initTrace : List Action :=
  [.ahbClkEnable, .apbClkEnable, .dmacSwreset, .dmacBaseaddrWrite,
   .dmacWrbaddrWrite, .dmacCtrlLvlen, .dmacCtrlEnable]

/-- `DmaController::init`: enables the DMAC clock masks in `PM`, issues a
software reset, writes the descriptor-table base address
(`DESCRIPTOR_SECTION.as_ptr() as u32`, here the parameter `descBase`) and
the writeback-table base address (`WRITEBACK.as_ptr() as u32`, here
`wrbBase`), sets all four priority-level-enable bits (in source order
`LVLEN3`, `LVLEN2`, `LVLEN1`, `LVLEN0` within one `modify`), then sets the
global `DMAENABLE` bit.  Returns the resulting register state together with
the access trace. -/
def init (descBase wrbBase : Nat) (d : DmacRegs) (pm : PmRegs) :
    DmacRegs × PmRegs × List Action :=
  let pm1 : PmRegs := { pm with ahbmask := wbit true AHB_DMAC pm.ahbmask }
  let pm2 : PmRegs := { pm1 with apbbmask := wbit true APB_DMAC pm1.apbbmask }
  let d1 := swreset d
  let d2 : DmacRegs := { d1 with baseaddr := descBase % 2 ^ 32 }
  let d3 : DmacRegs := { d2 with wrbaddr := wrbBase % 2 ^ 32 }
  let d4 : DmacRegs :=
    { d3 with ctrl := wbit true 8 (wbit true 9
        (wbit true 10 (wbit true 11 d3.ctrl))) }
  let d5 : DmacRegs := { d4 with ctrl := wbit true DMAENABLE d4.ctrl }
  (d5, pm2, initTrace)

/-- The trace of register accesses performed by `DmaController::free`, in
source order: clear `DMAENABLE`, software reset, disable APB clock, disable
AHB clock. -/
def freeTrace : List Action :=
  [.dmacCtrlDisable, .dmacSwreset, .apbClkDisable, .ahbClkDisable]

/-- `DmaController::free`: clears the global `DMAENABLE` bit, issues a
software reset, then clears the DMAC clock-mask bits in `PM` (APB first,
then AHB), and returns the register block to the caller. -/
def free (d : DmacRegs) (pm : PmRegs) : DmacRegs × PmRegs × List Action :=
  let d1 : DmacRegs := { d with ctrl := wbit false DMAENABLE d.ctrl }
  let d2 := swreset d1
  let pm1 : PmRegs := { pm with apbbmask := wbit false APB_DMAC pm.apbbmask }
  let pm2 : PmRegs := { pm1 with ahbmask := wbit false AHB_DMAC pm1.ahbmask }
  (d2, pm2, freeTrace)

/-! ## Per-level enable and arbitration setters -/

/-- `DmaController::level_0_enabled`: read-modify-write of `CTRL.LVLEN0`. -/
def level_0_enabled (enabled : Bool) (d : DmacRegs) : DmacRegs :=
  { d with ctrl := wbit enabled 8 d.ctrl }

/-- `DmaController::level_1_enabled`: read-modify-write of `CTRL.LVLEN1`. -/
def level_1_enabled (enabled : Bool) (d : DmacRegs) : DmacRegs :=
  { d with ctrl := wbit enabled 9 d.ctrl }

/-- `DmaController::level_2_enabled`: read-modify-write of `CTRL.LVLEN2`. -/
def level_2_enabled (enabled : Bool) (d : DmacRegs) : DmacRegs :=
  { d with ctrl := wbit enabled 10 d.ctrl }

/-- `DmaController::level_3_enabled`: read-modify-write of `CTRL.LVLEN3`. -/
def level_3_enabled (enabled : Bool) (d : DmacRegs) : DmacRegs :=
  { d with ctrl := wbit enabled 11 d.ctrl }

/-- `DmaController::level_0_round_robin`: read-modify-write of
`PRICTRL0.RRLVLEN0`. -/
def level_0_round_robin (enabled : Bool) (d : DmacRegs) : DmacRegs :=
  { d with prictrl0 := wbit enabled 7 d.prictrl0 }

/-- `DmaController::level_1_round_robin`: read-modify-write of
`PRICTRL0.RRLVLEN1`. -/
def level_1_round_robin (enabled : Bool) (d : DmacRegs) : DmacRegs :=
  { d with prictrl0 := wbit enabled 15 d.prictrl0 }

/-- `DmaController::level_2_round_robin`: read-modify-write of
`PRICTRL0.RRLVLEN2`. -/
def level_2_round_robin (enabled : Bool) (d : DmacRegs) : DmacRegs :=
  { d with prictrl0 := wbit enabled 23 d.prictrl0 }

/-- `DmaController::level_3_round_robin`: read-modify-write of
`PRICTRL0.RRLVLEN3`. -/
def level_3_round_robin (enabled : Bool) (d : DmacRegs) : DmacRegs :=
  { d with prictrl0 := wbit enabled 31 d.prictrl0 }

/-- Dispatcher over the four `level_x_enabled` methods, indexed by priority
level. -/
def levelEnabled (i : Fin 4) (b : Bool) (d : DmacRegs) : DmacRegs :=
  match i with
  | 0 => level_0_enabled b d
  | 1 => level_1_enabled b d
  | 2 => level_2_enabled b d
  | 3 => level_3_enabled b d

/-- Dispatcher over the four `level_x_round_robin` methods, indexed by
priority level. -/
def levelRoundRobin (i : Fin 4) (b : Bool) (d : DmacRegs) : DmacRegs :=
  match i with
  | 0 => level_0_round_robin b d
  | 1 => level_1_round_robin b d
  | 2 => level_2_round_robin b d
  | 3 => level_3_round_robin b d

/-! ## Mask-level operations

The spec describes `enable_levels` / `disable_levels` and
`round_robin_arbitration` / `static_arbitration` as operating on a 4-bit
mask, one bit per priority level.  On this driver a mask call is the
composition of the per-level source methods for the levels selected by the
mask. -/

/-- A valid 4-bit level mask: one flag per priority level 0..3. -/
structure LevelMask where
  l0 : Bool
  l1 : Bool
  l2 : Bool
  l3 : Bool
deriving DecidableEq, Repr

/-- Whether the mask selects priority level `i`. -/
def LevelMask.sel (m : LevelMask) : Fin 4 → Bool
  | 0 => m.l0
  | 1 => m.l1
  | 2 => m.l2
  | 3 => m.l3

/-- `enable_levels m`: call `level_i_enabled(true)` for every level `i`
selected by the mask `m`. -/
def enable_levels (m : LevelMask) (d : DmacRegs) : DmacRegs :=
  let d0 := if m.l0 then level_0_enabled true d else d
  let d1 := if m.l1 then level_1_enabled true d0 else d0
  let d2 := if m.l2 then level_2_enabled true d1 else d1
  if m.l3 then level_3_enabled true d2 else d2

/-- `disable_levels m`: call `level_i_enabled(false)` for every level `i`
selected by the mask `m`. -/
def disable_levels (m : LevelMask) (d : DmacRegs) : DmacRegs :=
  let d0 := if m.l0 then level_0_enabled false d else d
  let d1 := if m.l1 then level_1_enabled false d0 else d0
  let d2 := if m.l2 then level_2_enabled false d1 else d1
  if m.l3 then level_3_enabled false d2 else d2

/-- `round_robin_arbitration m`: call `level_i_round_robin(true)` for every
level `i` selected by the mask `m`. -/
def round_robin_arbitration (m : LevelMask) (d : DmacRegs) : DmacRegs :=
  let d0 := if m.l0 then level_0_round_robin true d else d
  let d1 := if m.l1 then level_1_round_robin true d0 else d0
  let d2 := if m.l2 then level_2_round_robin true d1 else d1
  if m.l3 then level_3_round_robin true d2 else d2

/-- `static_arbitration m`: call `level_i_round_robin(false)` for every
level `i` selected by the mask `m`. -/
def static_arbitration (m : LevelMask) (d : DmacRegs) : DmacRegs :=
  let d0 := if m.l0 then level_0_round_robin false d else d
  let d1 := if m.l1 then level_1_round_robin false d0 else d0
  let d2 := if m.l2 then level_2_round_robin false d1 else d1
  if m.l3 then level_3_round_robin false d2 else d2

/-- A call made on the controller between `init` and `free`: any of the
per-level enable or arbitration setters. -/
inductive MidCall where
  | levelEnable (i : Fin 4) (b : Bool)
  | levelRoundRobin (i : Fin 4) (b : Bool)

/-- Apply one mid-lifecycle call to the register state. -/
def applyMid (c : MidCall) (d : DmacRegs) : DmacRegs :=
  match c with
  | .levelEnable i b => levelEnabled i b d
  | .levelRoundRobin i b => levelRoundRobin i b d

/-- Apply a sequence of mid-lifecycle calls to the register state. -/
def applyMids (cs : List MidCall) (d : DmacRegs) : DmacRegs :=
  cs.foldl (fun s c => applyMid c s) d

/-! ## Channels and `split`

`Channel<S, I>` (defined in `channel.rs`, whose body is outside the files
under review) is a zero-sized typed handle tagged with a lifecycle state
`S` and a compile-time channel index `I`; `new_chan()` constructs the
handle whose index and state the surrounding `Channels` tuple type dictates.
Here a handle is a record carrying those two tags as data, and the
fixed-arity `Channels` tuple of each build variant becomes a list whose
entry at position `i` is the handle of index `i`, exactly mirroring the
`Channels(pub Channel<Uninitialized, 0>, pub Channel<Uninitialized, 1>, …)`
declarations of `dma_controller.rs`. -/

/-- Lifecycle state tag of a channel handle. -/
inductive ChanState where
  | uninitializedSt
  | readySt
  | busySt
deriving DecidableEq, Repr

/-- A channel handle: compile-time channel index and lifecycle state tag. -/
structure Chan where
  index : Nat
  state : ChanState
deriving DecidableEq, Repr

/-- Modelled from the spec: `new_chan` (in `channel.rs`, not among the files
under review) constructs the channel handle for a given compile-time index
in the `Uninitialized` lifecycle state. -/
def new_chan (i : Nat) : Chan := ⟨i, .uninitializedSt⟩

/-- The build variants of `dma_controller.rs`, one per `cfg` combination
guarding a distinct `split` body / `Channels` arity.  (`samd11` with
`max-channels` and `samd21` without it share one body of six channels.) -/
inductive Variant where
  | samd11
  | samd11Max
  | samd21
  | samd21Max
  | samd51
  | samd51Max
deriving DecidableEq, Repr

/-- Number of hardware channels of each build variant (the arity of its
`Channels` tuple). -/
def numChannels : Variant → Nat
  | .samd11 => 3
  | .samd11Max => 6
  | .samd21 => 6
  | .samd21Max => 12
  | .samd51 => 16
  | .samd51Max => 32

/-- The controller object: owns the DMAC register block. -/
structure DmaController where
  dmac : DmacRegs
deriving DecidableEq, Repr

/-- The `Channels` value built by each variant's `split` body: one
`new_chan()` per tuple position, the `Channels` type fixing index `i` and
state `Uninitialized` at position `i`. -/
def channelsOf : Variant → List Chan
  | .samd11 => [new_chan 0, new_chan 1, new_chan 2]
  | .samd11Max =>
    [new_chan 0, new_chan 1, new_chan 2, new_chan 3, new_chan 4, new_chan 5]
  | .samd21 =>
    [new_chan 0, new_chan 1, new_chan 2, new_chan 3, new_chan 4, new_chan 5]
  | .samd21Max =>
    [new_chan 0, new_chan 1, new_chan 2, new_chan 3, new_chan 4, new_chan 5,
     new_chan 6, new_chan 7, new_chan 8, new_chan 9, new_chan 10, new_chan 11]
  | .samd51 =>
    [new_chan 0, new_chan 1, new_chan 2, new_chan 3, new_chan 4, new_chan 5,
     new_chan 6, new_chan 7, new_chan 8, new_chan 9, new_chan 10, new_chan 11,
     new_chan 12, new_chan 13, new_chan 14, new_chan 15]
  | .samd51Max =>
    [new_chan 0, new_chan 1, new_chan 2, new_chan 3, new_chan 4, new_chan 5,
     new_chan 6, new_chan 7, new_chan 8, new_chan 9, new_chan 10, new_chan 11,
     new_chan 12, new_chan 13, new_chan 14, new_chan 15, new_chan 16,
     new_chan 17, new_chan 18, new_chan 19, new_chan 20, new_chan 21,
     new_chan 22, new_chan 23, new_chan 24, new_chan 25, new_chan 26,
     new_chan 27, new_chan 28, new_chan 29, new_chan 30, new_chan 31]

/-- `DmaController::split(&mut self) -> Channels`: takes the controller by
mutable borrow — not by value — performs no register access and keeps no
state, and returns the full set of channel handles.  The borrow ends when
the call returns, so the caller retains the controller (returned unchanged
here) and nothing prevents a further call. -/
def split (v : Variant) (c : DmaController) : DmaController × List Chan :=
  (c, channelsOf v)

/-! ## Bit-level helper lemmas -/

/-- Characteristic property of `wbit` within the 32-bit register width:
bit `p` becomes `b`, every other bit is unchanged. -/
theorem testBit_wbit (b : Bool) (p x j : Nat) (hp : p < 32) (hj : j < 32) :
    (wbit b p x).testBit j = if j = p then b else x.testBit j := by
  unfold wbit
  cases b with
  | true =>
    rw [if_pos rfl, Nat.testBit_lor]
    rcases eq_or_ne j p with rfl | h
    · simp [Nat.testBit_two_pow_self]
    · simp [Nat.testBit_two_pow_of_ne (Ne.symm h), h]
  | false =>
    rw [if_neg (by simp), Nat.testBit_land, Nat.testBit_xor,
      Nat.testBit_two_pow_sub_one]
    rcases eq_or_ne j p with rfl | h
    · simp [Nat.testBit_two_pow_self, hj]
    · simp [Nat.testBit_two_pow_of_ne (Ne.symm h), h, hj]

/-- `wbit` introduces no bits at or above position 32: a clear high bit
stays clear. -/
theorem testBit_wbit_high (b : Bool) (p x j : Nat) (hp : p < 32) (hj : 32 ≤ j)
    (hx : x.testBit j = false) : (wbit b p x).testBit j = false := by
  unfold wbit
  cases b with
  | true =>
    rw [if_pos rfl, Nat.testBit_lor, hx,
      Nat.testBit_two_pow_of_ne (by omega)]
    rfl
  | false =>
    rw [if_neg (by simp), Nat.testBit_land, hx]
    rfl

/-! ## Claim theorems -/

/-- C1: the claim says a second `split` on the same controller is rejected,
making duplicate `Channel` handles to one channel index impossible.  The
code violates this: `split` takes `&mut self` (a borrow that ends at
return), performs no check and records no state, so a second invocation on
the very same controller succeeds and returns a second, identical full set
of channel handles — here both invocations yield a live handle of channel
index 0. -/
theorem split_second_invocation_not_rejected :
    (split .samd11 (split .samd11 ⟨DMAC_RESET⟩).1).1
        = (⟨DMAC_RESET⟩ : DmaController)
    ∧ (split .samd11 (split .samd11 ⟨DMAC_RESET⟩).1).2
        = (split .samd11 ⟨DMAC_RESET⟩).2
    ∧ ((split .samd11 ⟨DMAC_RESET⟩).2)[0]?
        = some ⟨0, ChanState.uninitializedSt⟩
    ∧ ((split .samd11 (split .samd11 ⟨DMAC_RESET⟩).1).2)[0]?
        = some ⟨0, ChanState.uninitializedSt⟩ := by
  decide

/-- C8: for every build variant, `split` produces exactly one channel
handle per available hardware channel (`numChannels`), and every handle it
produces starts in the `Uninitialized` lifecycle state. -/
theorem split_one_handle_per_channel_all_uninitialized
    (v : Variant) (c : DmaController) :
    (split v c).2.length = numChannels v
    ∧ ((split v c).2.all fun ch => ch.state == ChanState.uninitializedSt)
        = true := by
  cases v <;> exact ⟨rfl, rfl⟩

/-- C9: in the `Channels` value returned by `split`, the handle at position
`i` carries channel index `i`: for every build variant the indices of the
returned handles are exactly `0 .. N-1` in order (hence pairwise distinct
and covering that range), where `N` is the variant's channel count. -/
theorem split_channel_indices_distinct_and_cover
    (v : Variant) (c : DmaController) :
    (split v c).2.map Chan.index = List.range (numChannels v)
    ∧ ((split v c).2.map Chan.index).Nodup := by
  simp only [split]
  cases v <;> exact ⟨by decide, by decide⟩

/-- C10: the driver never touches a DMAC register while the DMAC bus clock
is gated: starting from both clocks gated, every DMAC access in `init`'s
trace happens with both clock-mask bits enabled (the two enables come
first), `init` ends with both clocks on; and starting from both clocks on,
every DMAC access in `free`'s trace happens before the clock disables,
which leave both clocks gated at the end. -/
theorem dmac_access_only_while_clocked :
    clockSafe (false, false) initTrace = true
    ∧ clockAfter (false, false) initTrace = (true, true)
    ∧ clockSafe (true, true) freeTrace = true
    ∧ clockAfter (true, true) freeTrace = (false, false) := by
  decide

/-- C2: for every initial DMAC register state, `init` performs a software
reset, then writes the descriptor-table and writeback-table base-address
registers, then sets all four level-enable bits, then sets the global
DMA-enable bit (the access trace is exactly that sequence, after the two
clock enables), and the returned register state has all four `LVLEN` bits
and the `DMAENABLE` bit set and the two base-address registers holding the
two table addresses. -/
theorem init_resets_configures_and_enables
    (descBase wrbBase : Nat) (d : DmacRegs) (pm : PmRegs)
    (hb : descBase < 2 ^ 32) (hw : wrbBase < 2 ^ 32) :
    (init descBase wrbBase d pm).2.2 =
      [Action.ahbClkEnable, Action.apbClkEnable, Action.dmacSwreset,
       Action.dmacBaseaddrWrite, Action.dmacWrbaddrWrite,
       Action.dmacCtrlLvlen, Action.dmacCtrlEnable]
    ∧ (∀ i : Fin 4,
        (init descBase wrbBase d pm).1.ctrl.testBit (lvlenPos i) = true)
    ∧ (init descBase wrbBase d pm).1.ctrl.testBit DMAENABLE = true
    ∧ (init descBase wrbBase d pm).1.baseaddr = descBase
    ∧ (init descBase wrbBase d pm).1.wrbaddr = wrbBase := by
  refine ⟨rfl, ?_, ?_, ?_, ?_⟩
  · intro i
    simp only [init, swreset, DMAC_RESET]
    fin_cases i <;> decide
  · simp only [init, swreset, DMAC_RESET]
    decide
  · simp only [init, swreset, DMAC_RESET]
    exact Nat.mod_eq_of_lt hb
  · simp only [init, swreset, DMAC_RESET]
    exact Nat.mod_eq_of_lt hw

/-- Witness for C2 at concrete inputs. -/
theorem init_resets_configures_and_enables_witness :
    (init 4 8 ⟨1, 2, 3, 4⟩ ⟨0, 0⟩).1.baseaddr = 4 :=
  (init_resets_configures_and_enables 4 8 ⟨1, 2, 3, 4⟩ ⟨0, 0⟩
    (by decide) (by decide)).2.2.2.1

/-- C3: `free` clears the global DMA-enable bit, performs a software reset
and disables the DMAC clocking, in that order (its access trace), and
returns the register block; the returned block is the reset state, so its
DMA-enable bit is clear and the clock-mask bits are clear — in particular
after `init` followed by any sequence of level-enable / round-robin calls
and then `free`, regardless of those calls. -/
theorem free_disables_resets_and_releases
    (d : DmacRegs) (pm : PmRegs) (descBase wrbBase : Nat)
    (cs : List MidCall) :
    (free d pm).2.2 =
      [Action.dmacCtrlDisable, Action.dmacSwreset, Action.apbClkDisable,
       Action.ahbClkDisable]
    ∧ (free d pm).1 = DMAC_RESET
    ∧ (free d pm).1.ctrl.testBit DMAENABLE = false
    ∧ (free d pm).2.1.ahbmask.testBit AHB_DMAC = false
    ∧ (free d pm).2.1.apbbmask.testBit APB_DMAC = false
    ∧ ((free (applyMids cs (init descBase wrbBase d pm).1)
          (init descBase wrbBase d pm).2.1).1.ctrl.testBit DMAENABLE = false
       ∧ (free (applyMids cs (init descBase wrbBase d pm).1)
            (init descBase wrbBase d pm).2.1).2.1.ahbmask.testBit AHB_DMAC
              = false
       ∧ (free (applyMids cs (init descBase wrbBase d pm).1)
            (init descBase wrbBase d pm).2.1).2.1.apbbmask.testBit APB_DMAC
              = false) := by
  have hahb : ∀ x : Nat, (wbit false AHB_DMAC x).testBit AHB_DMAC = false := by
    intro x
    rw [testBit_wbit false AHB_DMAC x AHB_DMAC (by decide) (by decide)]
    simp
  have hapb : ∀ x : Nat, (wbit false APB_DMAC x).testBit APB_DMAC = false := by
    intro x
    rw [testBit_wbit false APB_DMAC x APB_DMAC (by decide) (by decide)]
    simp
  refine ⟨rfl, rfl, ?_, ?_, ?_, ?_, ?_, ?_⟩
  · simp only [free, swreset, DMAC_RESET]
    decide
  · simp only [free]
    exact hahb _
  · simp only [free]
    exact hapb _
  · simp only [free, swreset, DMAC_RESET]
    decide
  · simp only [free]
    exact hahb _
  · simp only [free]
    exact hapb _

/-- C5 counterexample: the software-reset busy-wait has no upper bound at
all — on a hardware behaviour where the reset-in-progress flag never
clears, no amount of fuel makes the loop exit, so no bounded-wait /
fatal-result contract holds of the code (whose `init` / `free` signatures
have no failure path). -/
theorem swreset_wait_has_no_bound : ¬ swresetTerminates (fun _ => true) := by
  rintro ⟨fuel, h⟩
  have aux : ∀ f k, swresetWait (fun _ => true) k f = none := by
    intro f
    induction f with
    | zero => intro k; rfl
    | succ f ih => intro k; simp [swresetWait, ih]
  rw [aux fuel 0] at h
  simp at h

/-- C5 (amended): the busy-wait performed by `init` and `free` spins with
no iteration bound and reports nothing to the caller; it terminates exactly
when some read of the reset-in-progress flag observes it clear, and spins
forever otherwise. -/
theorem swreset_wait_terminates_iff_flag_clears (hw : Nat → Bool) :
    swresetTerminates hw ↔ ∃ n, hw n = false := by
  constructor
  · rintro ⟨fuel, h⟩
    suffices aux : ∀ f k, (swresetWait hw k f).isSome = true →
        ∃ n, hw n = false from aux fuel 0 h
    intro f
    induction f with
    | zero => intro k h0; simp [swresetWait] at h0
    | succ f ih =>
      intro k h0
      by_cases hk : hw k = true
      · simp only [swresetWait, hk, if_true] at h0
        exact ih (k + 1) h0
      · exact ⟨k, by simpa using hk⟩
  · rintro ⟨n, hn⟩
    have aux : ∀ f k, (∃ j, j < f ∧ hw (k + j) = false) →
        (swresetWait hw k f).isSome = true := by
      intro f
      induction f with
      | zero =>
        rintro k ⟨j, hj, _⟩
        exact absurd hj (Nat.not_lt_zero j)
      | succ f ih =>
        rintro k ⟨j, hj, hjf⟩
        by_cases hk : hw k = true
        · have hj0 : j ≠ 0 := by
            rintro rfl
            rw [Nat.add_zero] at hjf
            rw [hjf] at hk
            exact Bool.noConfusion hk
          simp only [swresetWait, hk, if_true]
          refine ih (k + 1) ⟨j - 1, by omega, ?_⟩
          rw [show k + 1 + (j - 1) = k + j by omega]
          exact hjf
        · simp [swresetWait, hk]
    exact ⟨n + 1, aux (n + 1) 0 ⟨n, Nat.lt_succ_self n, by simpa using hn⟩⟩

/-- The four level-enable bit positions, as numerals. -/
theorem lvlenPos_vals :
    lvlenPos 0 = 8 ∧ lvlenPos 1 = 9 ∧ lvlenPos 2 = 10 ∧ lvlenPos 3 = 11 := by
  decide

/-- The four round-robin-enable bit positions, as numerals: one every
8 bits starting at bit 7. -/
theorem rrlvlenPos_vals :
    rrlvlenPos 0 = 7 ∧ rrlvlenPos 1 = 15 ∧ rrlvlenPos 2 = 23
      ∧ rrlvlenPos 3 = 31 := by
  decide

/-- Characteristic property of `cwbit` within the register width. -/
theorem testBit_cwbit (cnd b : Bool) (p x j : Nat) (hp : p < 32)
    (hj : j < 32) :
    (cwbit cnd b p x).testBit j =
      if j = p ∧ cnd = true then b else x.testBit j := by
  cases cnd with
  | false => simp [cwbit]
  | true => simp [cwbit, testBit_wbit b p x j hp hj]

/-- `cwbit` introduces no bits at or above position 32. -/
theorem testBit_cwbit_high (cnd b : Bool) (p x j : Nat) (hp : p < 32)
    (hj : 32 ≤ j) (hx : x.testBit j = false) :
    (cwbit cnd b p x).testBit j = false := by
  cases cnd with
  | false => simpa [cwbit] using hx
  | true => simpa [cwbit] using testBit_wbit_high b p x j hp hj hx

/-- `enable_levels` as a chain of conditional bit writes on `CTRL`. -/
theorem ctrl_enable_levels (m : LevelMask) (d : DmacRegs) :
    (enable_levels m d).ctrl =
      cwbit m.l3 true 11 (cwbit m.l2 true 10 (cwbit m.l1 true 9
        (cwbit m.l0 true 8 d.ctrl))) := by
  rcases m with ⟨a0, a1, a2, a3⟩
  cases a0 <;> cases a1 <;> cases a2 <;> cases a3 <;>
    simp [enable_levels, level_0_enabled, level_1_enabled, level_2_enabled,
      level_3_enabled, cwbit]

/-- `disable_levels` as a chain of conditional bit writes on `CTRL`. -/
theorem ctrl_disable_levels (m : LevelMask) (d : DmacRegs) :
    (disable_levels m d).ctrl =
      cwbit m.l3 false 11 (cwbit m.l2 false 10 (cwbit m.l1 false 9
        (cwbit m.l0 false 8 d.ctrl))) := by
  rcases m with ⟨a0, a1, a2, a3⟩
  cases a0 <;> cases a1 <;> cases a2 <;> cases a3 <;>
    simp [disable_levels, level_0_enabled, level_1_enabled, level_2_enabled,
      level_3_enabled, cwbit]

/-- Bitwise view of `enable_levels`: a bit of `CTRL` becomes `true` when it
is a level-enable bit selected by the mask, and is unchanged otherwise. -/
theorem enable_levels_testBit (m : LevelMask) (d : DmacRegs) (j : Nat)
    (hj : j < 32) :
    (enable_levels m d).ctrl.testBit j =
      if j = 11 ∧ m.l3 = true then true
      else if j = 10 ∧ m.l2 = true then true
      else if j = 9 ∧ m.l1 = true then true
      else if j = 8 ∧ m.l0 = true then true
      else d.ctrl.testBit j := by
  rw [ctrl_enable_levels]
  rw [testBit_cwbit, testBit_cwbit, testBit_cwbit, testBit_cwbit]
  all_goals first | rfl | exact hj | decide

/-- Bitwise view of `disable_levels`: a bit of `CTRL` becomes `false` when
it is a level-enable bit selected by the mask, and is unchanged
otherwise. -/
theorem disable_levels_testBit (m : LevelMask) (d : DmacRegs) (j : Nat)
    (hj : j < 32) :
    (disable_levels m d).ctrl.testBit j =
      if j = 11 ∧ m.l3 = true then false
      else if j = 10 ∧ m.l2 = true then false
      else if j = 9 ∧ m.l1 = true then false
      else if j = 8 ∧ m.l0 = true then false
      else d.ctrl.testBit j := by
  rw [ctrl_disable_levels]
  rw [testBit_cwbit, testBit_cwbit, testBit_cwbit, testBit_cwbit]
  all_goals first | rfl | exact hj | decide

/-- C4 counterexample: the enable-then-disable round trip does not restore
the level-enable bits for every prior control-register state.  With
`CTRL.LVLEN0` (bit 8) already set and the mask selecting level 0,
`enable_levels` leaves the bit set and `disable_levels` clears it — the
bit's pre-call value `true` is not restored. -/
theorem enable_disable_levels_not_a_roundtrip :
    (disable_levels ⟨true, false, false, false⟩
        (enable_levels ⟨true, false, false, false⟩
          ⟨256, 0, 0, 0⟩)).ctrl.testBit (lvlenPos 0) = false
    ∧ (256 : Nat).testBit (lvlenPos 0) = true := by
  decide

/-- C4 (amended): provided the level-enable bits selected by the mask are
clear in the prior state, `enable_levels m` followed by `disable_levels m`
restores the four level-enable bits (positions `lvlenPos 0 .. lvlenPos 3`)
to their pre-call values; and control bits outside the level-enable field
are never modified by either call. -/
theorem enable_disable_levels_roundtrip (m : LevelMask) (d : DmacRegs)
    (hpre : ∀ i : Fin 4, m.sel i = true →
      d.ctrl.testBit (lvlenPos i) = false) :
    ((disable_levels m (enable_levels m d)).ctrl.testBit (lvlenPos 0)
        = d.ctrl.testBit (lvlenPos 0)
      ∧ (disable_levels m (enable_levels m d)).ctrl.testBit (lvlenPos 1)
        = d.ctrl.testBit (lvlenPos 1)
      ∧ (disable_levels m (enable_levels m d)).ctrl.testBit (lvlenPos 2)
        = d.ctrl.testBit (lvlenPos 2)
      ∧ (disable_levels m (enable_levels m d)).ctrl.testBit (lvlenPos 3)
        = d.ctrl.testBit (lvlenPos 3))
    ∧ ∀ j : Nat, j < 32 → (∀ i : Fin 4, j ≠ lvlenPos i) →
        (enable_levels m d).ctrl.testBit j = d.ctrl.testBit j
        ∧ (disable_levels m (enable_levels m d)).ctrl.testBit j
            = d.ctrl.testBit j := by
  have h0 := hpre 0
  have h1 := hpre 1
  have h2 := hpre 2
  have h3 := hpre 3
  simp only [LevelMask.sel, lvlenPos_vals.1, lvlenPos_vals.2.1,
    lvlenPos_vals.2.2.1, lvlenPos_vals.2.2.2] at h0 h1 h2 h3
  constructor
  · simp only [lvlenPos_vals.1, lvlenPos_vals.2.1, lvlenPos_vals.2.2.1,
      lvlenPos_vals.2.2.2]
    refine ⟨?_, ?_, ?_, ?_⟩ <;>
      rw [disable_levels_testBit m _ _ (by decide),
        enable_levels_testBit m d _ (by decide)]
    · rcases Bool.eq_false_or_eq_true m.l0 with hm | hm
      · simp [hm, h0 hm]
      · simp [hm]
    · rcases Bool.eq_false_or_eq_true m.l1 with hm | hm
      · simp [hm, h1 hm]
      · simp [hm]
    · rcases Bool.eq_false_or_eq_true m.l2 with hm | hm
      · simp [hm, h2 hm]
      · simp [hm]
    · rcases Bool.eq_false_or_eq_true m.l3 with hm | hm
      · simp [hm, h3 hm]
      · simp [hm]
  · intro j hj hne
    have hn8 := hne 0
    have hn9 := hne 1
    have hn10 := hne 2
    have hn11 := hne 3
    simp only [lvlenPos_vals.1, lvlenPos_vals.2.1, lvlenPos_vals.2.2.1,
      lvlenPos_vals.2.2.2] at hn8 hn9 hn10 hn11
    rw [disable_levels_testBit m _ j hj, enable_levels_testBit m d j hj]
    simp [hn8, hn9, hn10, hn11]

/-- Witness for C4 (amended) at concrete inputs. -/
theorem enable_disable_levels_roundtrip_witness :
    (disable_levels ⟨true, true, false, false⟩
        (enable_levels ⟨true, true, false, false⟩
          ⟨3, 0, 0, 0⟩)).ctrl.testBit (lvlenPos 0)
      = (3 : Nat).testBit (lvlenPos 0) :=
  (enable_disable_levels_roundtrip ⟨true, true, false, false⟩ ⟨3, 0, 0, 0⟩
    (by decide)).1.1

/-- Single-bit write then read-back at the same position. -/
theorem wbit_self (b : Bool) (p x : Nat) (hp : p < 32) :
    (wbit b p x).testBit p = b := by
  rw [testBit_wbit b p x p hp hp]
  simp

/-- Single-bit write leaves every other position unchanged. -/
theorem wbit_other (b : Bool) (p x j : Nat) (hp : p < 32) (hj : j < 32)
    (hne : j ≠ p) : (wbit b p x).testBit j = x.testBit j := by
  rw [testBit_wbit b p x j hp hj]
  simp [hne]

/-- `round_robin_arbitration` as a chain of conditional bit writes on
`PRICTRL0`. -/
theorem prictrl0_round_robin_arbitration (m : LevelMask) (d : DmacRegs) :
    (round_robin_arbitration m d).prictrl0 =
      cwbit m.l3 true 31 (cwbit m.l2 true 23 (cwbit m.l1 true 15
        (cwbit m.l0 true 7 d.prictrl0))) := by
  rcases m with ⟨a0, a1, a2, a3⟩
  cases a0 <;> cases a1 <;> cases a2 <;> cases a3 <;>
    simp [round_robin_arbitration, level_0_round_robin, level_1_round_robin,
      level_2_round_robin, level_3_round_robin, cwbit]

/-- `static_arbitration` as a chain of conditional bit writes on
`PRICTRL0`. -/
theorem prictrl0_static_arbitration (m : LevelMask) (d : DmacRegs) :
    (static_arbitration m d).prictrl0 =
      cwbit m.l3 false 31 (cwbit m.l2 false 23 (cwbit m.l1 false 15
        (cwbit m.l0 false 7 d.prictrl0))) := by
  rcases m with ⟨a0, a1, a2, a3⟩
  cases a0 <;> cases a1 <;> cases a2 <;> cases a3 <;>
    simp [static_arbitration, level_0_round_robin, level_1_round_robin,
      level_2_round_robin, level_3_round_robin, cwbit]

/-- Bitwise view of `round_robin_arbitration`. -/
theorem round_robin_arbitration_testBit (m : LevelMask) (d : DmacRegs)
    (j : Nat) (hj : j < 32) :
    (round_robin_arbitration m d).prictrl0.testBit j =
      if j = 31 ∧ m.l3 = true then true
      else if j = 23 ∧ m.l2 = true then true
      else if j = 15 ∧ m.l1 = true then true
      else if j = 7 ∧ m.l0 = true then true
      else d.prictrl0.testBit j := by
  rw [prictrl0_round_robin_arbitration]
  rw [testBit_cwbit, testBit_cwbit, testBit_cwbit, testBit_cwbit]
  all_goals first | rfl | exact hj | decide

/-- Bitwise view of `static_arbitration`. -/
theorem static_arbitration_testBit (m : LevelMask) (d : DmacRegs)
    (j : Nat) (hj : j < 32) :
    (static_arbitration m d).prictrl0.testBit j =
      if j = 31 ∧ m.l3 = true then false
      else if j = 23 ∧ m.l2 = true then false
      else if j = 15 ∧ m.l1 = true then false
      else if j = 7 ∧ m.l0 = true then false
      else d.prictrl0.testBit j := by
  rw [prictrl0_static_arbitration]
  rw [testBit_cwbit, testBit_cwbit, testBit_cwbit, testBit_cwbit]
  all_goals first | rfl | exact hj | decide

/-- C6 counterexample: the round-robin-then-static round trip does not
restore the priority-control register for every prior state.  With
`PRICTRL0.RRLVLEN0` (bit 7) already set and the mask selecting level 0,
`round_robin_arbitration` leaves the bit set and `static_arbitration`
clears it: the register ends at 0, not its prior value 128. -/
theorem round_robin_static_not_a_roundtrip :
    (static_arbitration ⟨true, false, false, false⟩
        (round_robin_arbitration ⟨true, false, false, false⟩
          ⟨0, 128, 0, 0⟩)).prictrl0 = 0
    ∧ (128 : Nat) ≠ 0 := by
  decide

/-- C6 (amended): provided the round-robin-enable bits selected by the mask
are clear in the prior state, `round_robin_arbitration m` followed by
`static_arbitration m` restores the round-robin register (`PRICTRL0`) to
its prior value. -/
theorem round_robin_static_roundtrip (m : LevelMask) (d : DmacRegs)
    (hlt : d.prictrl0 < 2 ^ 32)
    (hpre : ∀ i : Fin 4, m.sel i = true →
      d.prictrl0.testBit (rrlvlenPos i) = false) :
    (static_arbitration m (round_robin_arbitration m d)).prictrl0
      = d.prictrl0 := by
  have h0 := hpre 0
  have h1 := hpre 1
  have h2 := hpre 2
  have h3 := hpre 3
  simp only [LevelMask.sel, rrlvlenPos_vals.1, rrlvlenPos_vals.2.1,
    rrlvlenPos_vals.2.2.1, rrlvlenPos_vals.2.2.2] at h0 h1 h2 h3
  refine Nat.eq_of_testBit_eq fun j => ?_
  rcases Nat.lt_or_ge j 32 with hj | hj
  · rw [static_arbitration_testBit m _ j hj,
      round_robin_arbitration_testBit m d j hj]
    split_ifs
    all_goals try rfl
    all_goals
      rename_i hcnd
      obtain ⟨rfl, hb⟩ := hcnd
      first
      | exact (h3 hb).symm
      | exact (h2 hb).symm
      | exact (h1 hb).symm
      | exact (h0 hb).symm
  · have hbit : d.prictrl0.testBit j = false :=
      Nat.testBit_lt_two_pow
        (lt_of_lt_of_le hlt (Nat.pow_le_pow_right (by decide) hj))
    rw [hbit, prictrl0_static_arbitration, prictrl0_round_robin_arbitration]
    iterate 8 refine testBit_cwbit_high _ _ _ _ _ (by decide) hj ?_
    exact hbit

/-- Witness for C6 (amended) at concrete inputs. -/
theorem round_robin_static_roundtrip_witness :
    (static_arbitration ⟨true, false, true, false⟩
        (round_robin_arbitration ⟨true, false, true, false⟩
          ⟨0, 1, 0, 0⟩)).prictrl0 = 1 :=
  round_robin_static_roundtrip ⟨true, false, true, false⟩ ⟨0, 1, 0, 0⟩
    (by decide) (by decide)

/-- C7: every per-level enable/disable call and every per-level
round-robin/static-arbitration call is a read-modify-write changing only
the single bit of its own priority level: `level_i_enabled` writes exactly
bit `8 + i` of `CTRL` and preserves every other control bit and every other
register; `level_i_round_robin` writes exactly bit `8 * i + 7` of
`PRICTRL0` (the fixed 8-bit-spaced positions 7, 15, 23, 31) and preserves
every other priority-control bit and every other register. -/
theorem per_level_calls_modify_only_their_bit (b : Bool) (d : DmacRegs)
    (j : Nat) (hj : j < 32) :
    ((level_0_enabled b d).ctrl.testBit 8 = b
      ∧ (j ≠ 8 → (level_0_enabled b d).ctrl.testBit j = d.ctrl.testBit j)
      ∧ (level_0_enabled b d).prictrl0 = d.prictrl0
      ∧ (level_0_enabled b d).baseaddr = d.baseaddr
      ∧ (level_0_enabled b d).wrbaddr = d.wrbaddr)
    ∧ ((level_1_enabled b d).ctrl.testBit 9 = b
      ∧ (j ≠ 9 → (level_1_enabled b d).ctrl.testBit j = d.ctrl.testBit j)
      ∧ (level_1_enabled b d).prictrl0 = d.prictrl0
      ∧ (level_1_enabled b d).baseaddr = d.baseaddr
      ∧ (level_1_enabled b d).wrbaddr = d.wrbaddr)
    ∧ ((level_2_enabled b d).ctrl.testBit 10 = b
      ∧ (j ≠ 10 → (level_2_enabled b d).ctrl.testBit j = d.ctrl.testBit j)
      ∧ (level_2_enabled b d).prictrl0 = d.prictrl0
      ∧ (level_2_enabled b d).baseaddr = d.baseaddr
      ∧ (level_2_enabled b d).wrbaddr = d.wrbaddr)
    ∧ ((level_3_enabled b d).ctrl.testBit 11 = b
      ∧ (j ≠ 11 → (level_3_enabled b d).ctrl.testBit j = d.ctrl.testBit j)
      ∧ (level_3_enabled b d).prictrl0 = d.prictrl0
      ∧ (level_3_enabled b d).baseaddr = d.baseaddr
      ∧ (level_3_enabled b d).wrbaddr = d.wrbaddr)
    ∧ ((level_0_round_robin b d).prictrl0.testBit 7 = b
      ∧ (j ≠ 7 →
          (level_0_round_robin b d).prictrl0.testBit j
            = d.prictrl0.testBit j)
      ∧ (level_0_round_robin b d).ctrl = d.ctrl
      ∧ (level_0_round_robin b d).baseaddr = d.baseaddr
      ∧ (level_0_round_robin b d).wrbaddr = d.wrbaddr)
    ∧ ((level_1_round_robin b d).prictrl0.testBit 15 = b
      ∧ (j ≠ 15 →
          (level_1_round_robin b d).prictrl0.testBit j
            = d.prictrl0.testBit j)
      ∧ (level_1_round_robin b d).ctrl = d.ctrl
      ∧ (level_1_round_robin b d).baseaddr = d.baseaddr
      ∧ (level_1_round_robin b d).wrbaddr = d.wrbaddr)
    ∧ ((level_2_round_robin b d).prictrl0.testBit 23 = b
      ∧ (j ≠ 23 →
          (level_2_round_robin b d).prictrl0.testBit j
            = d.prictrl0.testBit j)
      ∧ (level_2_round_robin b d).ctrl = d.ctrl
      ∧ (level_2_round_robin b d).baseaddr = d.baseaddr
      ∧ (level_2_round_robin b d).wrbaddr = d.wrbaddr)
    ∧ ((level_3_round_robin b d).prictrl0.testBit 31 = b
      ∧ (j ≠ 31 →
          (level_3_round_robin b d).prictrl0.testBit j
            = d.prictrl0.testBit j)
      ∧ (level_3_round_robin b d).ctrl = d.ctrl
      ∧ (level_3_round_robin b d).baseaddr = d.baseaddr
      ∧ (level_3_round_robin b d).wrbaddr = d.wrbaddr)
    ∧ (lvlenPos 0 = 8 ∧ lvlenPos 1 = 9 ∧ lvlenPos 2 = 10 ∧ lvlenPos 3 = 11)
    ∧ (rrlvlenPos 0 = 7 ∧ rrlvlenPos 1 = 15 ∧ rrlvlenPos 2 = 23
        ∧ rrlvlenPos 3 = 31) := by
  refine ⟨⟨?_, ?_, rfl, rfl, rfl⟩, ⟨?_, ?_, rfl, rfl, rfl⟩,
    ⟨?_, ?_, rfl, rfl, rfl⟩, ⟨?_, ?_, rfl, rfl, rfl⟩,
    ⟨?_, ?_, rfl, rfl, rfl⟩, ⟨?_, ?_, rfl, rfl, rfl⟩,
    ⟨?_, ?_, rfl, rfl, rfl⟩, ⟨?_, ?_, rfl, rfl, rfl⟩,
    by decide, by decide⟩
  · simp only [level_0_enabled]
    exact wbit_self b 8 d.ctrl (by decide)
  · intro hne
    simp only [level_0_enabled]
    exact wbit_other b 8 d.ctrl j (by decide) hj hne
  · simp only [level_1_enabled]
    exact wbit_self b 9 d.ctrl (by decide)
  · intro hne
    simp only [level_1_enabled]
    exact wbit_other b 9 d.ctrl j (by decide) hj hne
  · simp only [level_2_enabled]
    exact wbit_self b 10 d.ctrl (by decide)
  · intro hne
    simp only [level_2_enabled]
    exact wbit_other b 10 d.ctrl j (by decide) hj hne
  · simp only [level_3_enabled]
    exact wbit_self b 11 d.ctrl (by decide)
  · intro hne
    simp only [level_3_enabled]
    exact wbit_other b 11 d.ctrl j (by decide) hj hne
  · simp only [level_0_round_robin]
    exact wbit_self b 7 d.prictrl0 (by decide)
  · intro hne
    simp only [level_0_round_robin]
    exact wbit_other b 7 d.prictrl0 j (by decide) hj hne
  · simp only [level_1_round_robin]
    exact wbit_self b 15 d.prictrl0 (by decide)
  · intro hne
    simp only [level_1_round_robin]
    exact wbit_other b 15 d.prictrl0 j (by decide) hj hne
  · simp only [level_2_round_robin]
    exact wbit_self b 23 d.prictrl0 (by decide)
  · intro hne
    simp only [level_2_round_robin]
    exact wbit_other b 23 d.prictrl0 j (by decide) hj hne
  · simp only [level_3_round_robin]
    exact wbit_self b 31 d.prictrl0 (by decide)
  · intro hne
    simp only [level_3_round_robin]
    exact wbit_other b 31 d.prictrl0 j (by decide) hj hne

/-- Witness for C7 at concrete inputs. -/
theorem per_level_calls_modify_only_their_bit_witness :
    (level_0_enabled true ⟨0, 0, 0, 0⟩).ctrl.testBit 8 = true :=
  (per_level_calls_modify_only_their_bit true ⟨0, 0, 0, 0⟩ 0 (by decide)).1.1

end Dmac
